import Mathlib

/-!
Verification of the acquisition-scheduling, segment-rotation and
archive-dispatch subsystem of the magnetometer logging program
(`RM3100_NM.py`, `magrun.py`, `compress_script.py`, `RM3100_SOFIA.py`).

The Python code is shallowly embedded: the per-tick adapter behaviour
(`check_measurement`, `read_measurements`, `time.time()`) is abstracted as a
`TickInput` supplied by the environment, and the state mutated by the main
loop of `measure_and_save_cont_MAG` (the `counters` list, the rows emitted for
each magnetometer, the error log) is carried explicitly.
-/

namespace MagRun

/-- One record emitted for a magnetometer: the row
`[timestamp, counters[i], x, y, z]` of `measure_and_save_cont_MAG`
(RM3100_NM.py lines 297-300). -/
structure Row where
  ts : Int
  counter : Nat
  x : Int
  y : Int
  z : Int
deriving DecidableEq

/-- Per-magnetometer loop state of `measure_and_save_cont_MAG`:
`counters[i]`, the rows emitted so far for sensor `i`, and the number of
"Error during measurement" log lines printed for sensor `i`. -/
structure SensorState where
  counter : Nat
  rows : List Row
  errors : Nat
deriving DecidableEq

/-- The state a sensor starts with: `counters.append(0)` and no output
(RM3100_NM.py line 272). -/
def SensorState.init : SensorState := { counter := 0, rows := [], errors := 0 }

/-- Environment-supplied behaviour of one sensor adapter on one loop
iteration: the result of `mag.check_measurement()`, the result of
`mag.read_measurements()` (`none` models the `return False` taken on an I2C
error, which makes the subsequent `mag_data['x']` subscript raise), and the
value `time.time()` returns at this slot. -/
structure TickInput where
  ready : Bool
  readResult : Option (Int × Int × Int)
  ts : Int
deriving DecidableEq

/-- Body of the inner `for i, mag in enumerate(mags)` loop of
`measure_and_save_cont_MAG` (RM3100_NM.py lines 287-313): the sensor is
serviced only when `mag.check_measurement()` returned true and
`counters[i] < worstcounter`; a successful read appends one row and advances
the counter; a failed read raises inside the `try`, is logged by the
`except` handler and leaves counter and rows untouched. -/
def serviceSensor (bound : Nat) (st : SensorState) (inp : TickInput) : SensorState :=
  if inp.ready ∧ st.counter < bound then
    match inp.readResult with
    | some (x, y, z) =>
        { counter := st.counter + 1
          rows := st.rows ++ [{ ts := inp.ts, counter := st.counter, x := x, y := y, z := z }]
          errors := st.errors }
    | none => { st with errors := st.errors + 1 }
  else st

/-- The sequence of services one fixed sensor receives over a run: the
column of the main loop belonging to that sensor. -/
def runSensor (bound : Nat) : SensorState → List TickInput → SensorState
  | st, [] => st
  | st, inp :: rest => runSensor bound (serviceSensor bound st inp) rest

/-- One iteration of the outer `while time.time() <= finish + pretime` loop:
every sensor is serviced once, in list order, each against its own adapter
outcome for this tick. -/
def stepTick (bound : Nat) (sts : List SensorState) (row : List TickInput) : List SensorState :=
  List.zipWith (serviceSensor bound) sts row

/-- The main measurement loop of `measure_and_save_cont_MAG`, run over an
environment-supplied list of ticks (the number of iterations the wall-clock
condition admits is abstract). -/
def runLoop (bound : Nat) : List SensorState → List (List TickInput) → List SensorState
  | sts, [] => sts
  | sts, row :: rest => runLoop bound (stepTick bound sts row) rest

/-- Models `int(1.1*round(rfrq)/3)` (RM3100_NM.py line 259) by exact rational
arithmetic: `⌊11·rfrq/30⌋`. For a Python int `rfrq`, `round(rfrq) = rfrq`,
and at every concrete frequency evaluated in this development the float
expression and the exact floor agree. -/
def worstfreq (rfrq : Nat) : Nat := 11 * rfrq / 30

/-- Models `max(mag.read8(0x8B) for mag in mags)` (RM3100_NM.py line 258)
over the list of reported frequencies. -/
def maxFreq (freqs : List Nat) : Nat := freqs.foldl max 0

/-- The worst-case sample bound `worstcounter = worstfreq*duration`
(RM3100_NM.py lines 258-260) computed from the sensors' reported
frequencies and the segment duration. -/
def rateBound (freqs : List Nat) (duration : Nat) : Nat :=
  worstfreq (maxFreq freqs) * duration

/-- `measure_and_save_cont_MAG` (RM3100_NM.py lines 231-320) restricted to
its loop state: every magnetometer gets a fresh counter initialized to 0,
and the main loop runs over the supplied ticks with the worst-case bound
computed from the reported frequencies and this call's duration. The
returned list holds each sensor's final counter, emitted rows and error
count — the content of that sensor's segment file for this call. -/
def measure_and_save_cont_MAG (freqs : List Nat) (duration : Nat)
    (ticks : List (List TickInput)) : List SensorState :=
  runLoop (rateBound freqs duration) (List.replicate freqs.length SensorState.init) ticks

/-- The services a fixed sensor index receives over a run. -/
def column (i : Nat) (ticks : List (List TickInput)) : List TickInput :=
  ticks.filterMap (fun row => row[i]?)

/-- Servicing a sensor never pushes its counter past the bound. -/
theorem serviceSensor_counter_le (bound : Nat) (st : SensorState) (inp : TickInput)
    (h : st.counter ≤ bound) : (serviceSensor bound st inp).counter ≤ bound := by
  unfold serviceSensor
  split
  · next hc =>
      match hr : inp.readResult with
      | some (x, y, z) => simp only []; omega
      | none => simpa using h
  · exact h

/-- Servicing a sensor whose counter has reached the bound changes nothing. -/
theorem serviceSensor_at_bound (bound : Nat) (st : SensorState) (inp : TickInput)
    (h : bound ≤ st.counter) : serviceSensor bound st inp = st := by
  unfold serviceSensor
  rw [if_neg]
  rintro ⟨-, hlt⟩
  omega

/-- The counter bound is an invariant of a whole sensor run. -/
theorem runSensor_counter_le (bound : Nat) (l : List TickInput) (st : SensorState)
    (h : st.counter ≤ bound) : (runSensor bound st l).counter ≤ bound := by
  induction l generalizing st with
  | nil => exact h
  | cons inp rest ih => exact ih _ (serviceSensor_counter_le bound st inp h)

/-- If a sensor's emitted counters so far are exactly `0, …, counter−1`, they
stay so through a run: each successful read appends the current counter and
increments it; failed or skipped ticks change neither. -/
theorem runSensor_rows_range (bound : Nat) (l : List TickInput) (st : SensorState)
    (h : st.rows.map Row.counter = List.range st.counter) :
    (runSensor bound st l).rows.map Row.counter = List.range (runSensor bound st l).counter := by
  induction l generalizing st with
  | nil => exact h
  | cons inp rest ih =>
      refine ih _ ?_
      unfold serviceSensor
      split
      · match hr : inp.readResult with
        | some (x, y, z) =>
            simp only [List.map_append, List.map_cons, List.map_nil, h]
            exact (List.range_succ st.counter).symm
        | none => simpa using h
      · exact h

/-- Pointwise description of one multi-sensor tick. -/
theorem stepTick_getElem? (bound : Nat) :
    ∀ (sts : List SensorState) (row : List TickInput) (i : Nat),
      (stepTick bound sts row)[i]? =
        match sts[i]?, row[i]? with
        | some s, some r => some (serviceSensor bound s r)
        | _, _ => none
  | [], _, _ => by simp [stepTick]
  | _ :: _, [], _ => by simp [stepTick]
  | s :: sts, r :: row, 0 => by simp [stepTick]
  | s :: sts, r :: row, i + 1 => by
      simpa [stepTick] using stepTick_getElem? bound sts row i

/-- A tick preserves the number of sensors when every sensor got an input. -/
theorem stepTick_length (bound : Nat) (sts : List SensorState) (row : List TickInput)
    (h : row.length = sts.length) : (stepTick bound sts row).length = sts.length := by
  simp [stepTick, List.length_zipWith, h]

/-- The main loop decomposes per sensor: sensor `i`'s final state is its own
column of adapter outcomes folded over `serviceSensor`, independent of every
other sensor. Requires each tick to supply one input per sensor. -/
theorem runLoop_getElem? (bound : Nat) :
    ∀ (ticks : List (List TickInput)) (sts : List SensorState),
      (∀ row ∈ ticks, row.length = sts.length) → ∀ i : Nat,
      (runLoop bound sts ticks)[i]? =
        Option.map (fun s => runSensor bound s (column i ticks)) sts[i]?
  | [], sts, _, i => by
      cases h : sts[i]? <;> simp [runLoop, column, runSensor, h]
  | row :: rest, sts, hw, i => by
      have hrow : row.length = sts.length := hw row (List.mem_cons_self _ _)
      have hrest : ∀ r ∈ rest, r.length = (stepTick bound sts row).length := by
        intro r hr
        rw [stepTick_length bound sts row hrow]
        exact hw r (List.mem_cons_of_mem _ hr)
      have ih := runLoop_getElem? bound rest (stepTick bound sts row) hrest i
      show (runLoop bound (stepTick bound sts row) rest)[i]? = _
      rw [ih, stepTick_getElem?]
      cases hs : sts[i]? with
      | none =>
          have hlen : sts.length ≤ i := by
            simpa using List.getElem?_eq_none_iff.mp hs
          have hrnone : row[i]? = none := by
            apply List.getElem?_eq_none
            omega
          simp [hrnone, column, List.filterMap_cons]
      | some s =>
          have hilt : i < sts.length := by
            by_contra hge
            rw [List.getElem?_eq_none (by omega)] at hs
            exact Option.noConfusion hs
          have hrsome : ∃ r, row[i]? = some r := by
            have : i < row.length := by omega
            exact ⟨row[i], List.getElem?_eq_getElem this⟩
          obtain ⟨r, hr⟩ := hrsome
          simp only [hr, column, List.filterMap_cons, hr, Option.map_some']
          show some (runSensor bound (serviceSensor bound s r) (column i rest)) = _
          simp [runSensor, column]

/-- Fuel-indexed form of the `while elapsed_time < duration` loop of
`measure_and_save` (magrun.py lines 184-215): each iteration covers
`segment_duration = min(length, duration - elapsed_time)` and advances
`elapsed_time` by that amount; `d` is the remaining time. With a positive
segment length the remaining time shrinks by at least one second per
iteration, so fuel equal to the initial duration suffices. -/
def segLoop (L : Nat) : Nat → Nat → List Nat
  | 0, _ => []
  | fuel + 1, d => if d = 0 then [] else min L d :: segLoop L fuel (d - min L d)

/-- The list of segment durations `measure_and_save` produces for a run of
`d` seconds cut into segments of at most `L` seconds. -/
def segmentDurations (L d : Nat) : List Nat := segLoop L d d

/-- Closed form of the rotation loop: `⌊d/L⌋` full-length segments followed
by one segment of `d mod L` seconds when `L` does not divide `d`. -/
theorem segLoop_eq (L : Nat) (hL : 0 < L) :
    ∀ (fuel d : Nat), d ≤ fuel →
      segLoop L fuel d =
        List.replicate (d / L) L ++ (if d % L = 0 then [] else [d % L])
  | 0, d, hd => by
      have : d = 0 := Nat.le_zero.mp hd
      subst this
      simp [segLoop, Nat.zero_div, Nat.zero_mod]
  | fuel + 1, d, hd => by
      rcases Nat.eq_zero_or_pos d with hd0 | hdpos
      · subst hd0
        simp [segLoop, Nat.zero_div, Nat.zero_mod]
      · rw [segLoop, if_neg (by omega)]
        rcases le_or_lt L d with hLd | hdL
        · have hmin : min L d = L := min_eq_left hLd
          rw [hmin]
          have hsub : d - L ≤ fuel := by omega
          rw [segLoop_eq L hL fuel (d - L) hsub]
          have hdc : d - L + L = d := Nat.sub_add_cancel hLd
          have hdiv : d / L = (d - L) / L + 1 := by
            conv_lhs => rw [← hdc]
            rw [Nat.add_div_right _ hL]
          have hmod : d % L = (d - L) % L := by
            conv_lhs => rw [← hdc]
            rw [Nat.add_mod_right]
          rw [hdiv, hmod, List.replicate_succ, List.cons_append]
        · have hmin : min L d = d := min_eq_right (le_of_lt hdL)
          rw [hmin, Nat.sub_self]
          have h0 : segLoop L fuel 0 = [] := by cases fuel <;> simp [segLoop]
          have hdiv : d / L = 0 := Nat.div_eq_of_lt hdL
          have hmod : d % L = d := Nat.mod_eq_of_lt hdL
          rw [h0, hdiv, hmod, if_neg (by omega)]
          simp

/-- Closed form of `segmentDurations`. -/
theorem segmentDurations_eq (L d : Nat) (hL : 0 < L) :
    segmentDurations L d =
      List.replicate (d / L) L ++ (if d % L = 0 then [] else [d % L]) :=
  segLoop_eq L hL d d le_rfl

/-- Ceiling division expressed through quotient and remainder. -/
theorem ceil_div_eq (L d : Nat) (hL : 0 < L) :
    (d + L - 1) / L = d / L + (if d % L = 0 then 0 else 1) := by
  have hqr := Nat.div_add_mod d L
  set q := d / L with hq
  set r := d % L with hr
  have hrlt : r < L := Nat.mod_lt d hL
  by_cases h0 : r = 0
  · rw [if_pos h0]
    have : d + L - 1 = L * q + (L - 1) := by omega
    rw [this, Nat.mul_add_div hL, Nat.div_eq_of_lt (by omega)]
  · rw [if_neg h0]
    have : d + L - 1 = L * (q + 1) + (r - 1) := by
      have : L * (q + 1) = L * q + L := by ring
      omega
    rw [this, Nat.mul_add_div hL, Nat.div_eq_of_lt (by omega)]

/-- C6: for every run duration `d` and segment length `L` with `0 < L ≤ d`,
the rotation loop of `measure_and_save` produces exactly `⌈d/L⌉` segments
per sensor; every non-final segment covers `L` seconds and the final one
covers `d mod L` seconds (`L` when `L` divides `d`). -/
theorem segment_count_and_durations (L d : Nat) (hL : 0 < L) (hLd : L ≤ d) :
    (segmentDurations L d).length = (d + L - 1) / L ∧
    (segmentDurations L d).getLast? = some (if d % L = 0 then L else d % L) ∧
    (segmentDurations L d).dropLast =
      List.replicate ((segmentDurations L d).length - 1) L := by
  have hq1 : 1 ≤ d / L := (Nat.one_le_div_iff hL).mpr hLd
  rw [segmentDurations_eq L d hL, ceil_div_eq L d hL]
  by_cases h0 : d % L = 0
  · rw [if_pos h0, if_pos h0, if_pos h0]
    have hrepl : List.replicate (d / L) L =
        List.replicate (d / L - 1) L ++ [L] := by
      conv_lhs => rw [show d / L = (d / L - 1) + 1 by omega]
      rw [List.replicate_succ' (d / L - 1) L]
    rw [List.append_nil, hrepl]
    refine ⟨?_, List.getLast?_concat _, ?_⟩
    · simp only [List.length_append, List.length_replicate, List.length_cons,
        List.length_nil]
      omega
    · rw [List.dropLast_concat]
      congr 1
      simp only [List.length_append, List.length_replicate, List.length_cons,
        List.length_nil]
      omega
  · rw [if_neg h0, if_neg h0, if_neg h0]
    refine ⟨?_, List.getLast?_concat _, ?_⟩
    · simp only [List.length_append, List.length_replicate, List.length_cons,
        List.length_nil]
    · rw [List.dropLast_concat]
      congr 1
      simp only [List.length_append, List.length_replicate, List.length_cons,
        List.length_nil]
      omega

/-- Witness for C6 at `L = 5`, `d = 12`: three segments `[5, 5, 2]`. -/
theorem segment_count_and_durations_witness :
    (segmentDurations 5 12).length = (12 + 5 - 1) / 5 ∧
    (segmentDurations 5 12).getLast? = some (if 12 % 5 = 0 then 5 else 12 % 5) ∧
    (segmentDurations 5 12).dropLast =
      List.replicate ((segmentDurations 5 12).length - 1) 5 :=
  segment_count_and_durations 5 12 (by decide) (by decide)

/-- State of the archive-dispatch bookkeeping in `measure_and_save`
(magrun.py lines 182-203): the length of `file_list` (the backlog of
finished segment files not yet handed to the compression script) and the
sizes of the batches handed to `compress_files_with_script` so far. -/
structure DispatchState where
  backlog : Nat
  batches : List Nat
deriving DecidableEq

/-- One iteration of the dispatch logic (magrun.py lines 190-203): the
segment's output paths join `file_list` (`extend` adds one path per sensor
when there are at least two magnetometers, `append` adds a single entry
otherwise), then a batch is dispatched and the backlog cleared exactly when
`len(file_list) > 16 or segment_duration < length`. -/
def dispatchStep (n L : Nat) (st : DispatchState) (segDur : Nat) : DispatchState :=
  if 16 < st.backlog + (if n < 2 then 1 else n) ∨ segDur < L then
    { backlog := 0, batches := st.batches ++ [st.backlog + (if n < 2 then 1 else n)] }
  else { backlog := st.backlog + (if n < 2 then 1 else n), batches := st.batches }

/-- The dispatch bookkeeping of a whole `measure_and_save` run with `n`
magnetometers, segment length `L` and duration `d`. -/
def measure_and_save (n L d : Nat) : DispatchState :=
  (segmentDurations L d).foldl (dispatchStep n L) { backlog := 0, batches := [] }

/-- C4 counterexample: with 4 sensors, segment length 5 and duration 10 (an
exact multiple of the segment length), the run ends with 8 finished file
paths still in the backlog and no batch ever dispatched — the claimed
run-end drain does not happen. -/
theorem dispatch_leftover_on_exact_multiple :
    (measure_and_save 4 5 10).backlog = 8 ∧ (measure_and_save 4 5 10).batches = [] := by
  decide

/-- C4 amended: a batch is dispatched exactly when the backlog exceeds 16
after a segment's paths are appended or when the segment just produced is
shorter than the configured length; since the final segment is short
exactly when `L` does not divide `d`, in that case the run ends with an
empty backlog and at least one batch dispatched — but not when the duration
is an exact multiple of the segment length. -/
theorem dispatch_drains_on_short_final_segment (n L d : Nat) (hL : 0 < L)
    (hr : d % L ≠ 0) :
    (measure_and_save n L d).backlog = 0 ∧
    (measure_and_save n L d).batches ≠ [] ∧
    (∀ (st : DispatchState) (segDur : Nat),
      (dispatchStep n L st segDur).batches ≠ st.batches ↔
        (16 < st.backlog + (if n < 2 then 1 else n) ∨ segDur < L)) := by
  have hstep : ∀ (st : DispatchState) (segDur : Nat),
      (dispatchStep n L st segDur).batches ≠ st.batches ↔
        (16 < st.backlog + (if n < 2 then 1 else n) ∨ segDur < L) := by
    intro st segDur
    by_cases hcond : 16 < st.backlog + (if n < 2 then 1 else n) ∨ segDur < L
    · rw [dispatchStep, if_pos hcond]
      refine iff_of_true ?_ hcond
      intro h
      have := congrArg List.length h
      simp at this
    · rw [dispatchStep, if_neg hcond]
      exact iff_of_false (by simp) hcond
  have hlast : d % L < L := Nat.mod_lt d hL
  have hfinal : measure_and_save n L d =
      dispatchStep n L
        ((List.replicate (d / L) L).foldl (dispatchStep n L)
          { backlog := 0, batches := [] }) (d % L) := by
    rw [measure_and_save, segmentDurations_eq L d hL, if_neg hr, List.foldl_append,
      List.foldl_cons, List.foldl_nil]
  refine ⟨?_, ?_, hstep⟩
  · rw [hfinal, dispatchStep, if_pos (Or.inr hlast)]
  · rw [hfinal, dispatchStep, if_pos (Or.inr hlast)]
    simp

/-- Witness for C4 amended at `n = 4`, `L = 5`, `d = 7`: the final 2-second
segment forces the drain. -/
theorem dispatch_drains_witness :
    (measure_and_save 4 5 7).backlog = 0 ∧
    (measure_and_save 4 5 7).batches ≠ [] ∧
    ((dispatchStep 4 5 { backlog := 0, batches := [] } 3).batches ≠
        ({ backlog := 0, batches := [] } : DispatchState).batches ↔
      (16 < 0 + (if (4 : Nat) < 2 then 1 else 4) ∨ 3 < 5)) :=
  ⟨(dispatch_drains_on_short_final_segment 4 5 7 (by decide) (by decide)).1,
   (dispatch_drains_on_short_final_segment 4 5 7 (by decide) (by decide)).2.1,
   (dispatch_drains_on_short_final_segment 4 5 7 (by decide) (by decide)).2.2
     { backlog := 0, batches := [] } 3⟩

/-- A run of `n` ticks on which the sensor is always ready and every read
succeeds (with zero field values; the values are irrelevant to counting). -/
def successTicks (n : Nat) : List TickInput :=
  (List.range n).map
    (fun t : Nat => { ready := true, readResult := some (0, 0, 0), ts := Int.ofNat t })

/-- Over any all-successful tick sequence a sensor's counter climbs by one
per tick until it hits the bound and then stays there. -/
theorem runSensor_allSuccess (bound : Nat) :
    ∀ (l : List TickInput),
      (∀ inp ∈ l, inp.ready = true ∧ inp.readResult.isSome = true) →
      ∀ st : SensorState, st.counter ≤ bound →
      (runSensor bound st l).counter = min (st.counter + l.length) bound
  | [], _, st, hst => by
      rw [runSensor]
      simp only [List.length_nil, Nat.add_zero]
      omega
  | inp :: rest, hall, st, hst => by
      have hhead := hall inp (List.mem_cons_self _ _)
      have hrest : ∀ i ∈ rest, i.ready = true ∧ i.readResult.isSome = true :=
        fun i hi => hall i (List.mem_cons_of_mem _ hi)
      obtain ⟨v, hv⟩ := Option.isSome_iff_exists.mp hhead.2
      rw [runSensor]
      by_cases hlt : st.counter < bound
      · have hsvc : serviceSensor bound st inp =
            { counter := st.counter + 1
              rows := st.rows ++
                [{ ts := inp.ts, counter := st.counter, x := v.1, y := v.2.1, z := v.2.2 }]
              errors := st.errors } := by
          rw [serviceSensor, if_pos ⟨hhead.1, hlt⟩, hv]
        rw [hsvc, runSensor_allSuccess bound rest hrest _ (by simpa using hlt)]
        simp only [List.length_cons]
        omega
      · have hle : bound ≤ st.counter := Nat.le_of_not_lt hlt
        rw [serviceSensor_at_bound bound st inp hle,
          runSensor_allSuccess bound rest hrest st hst]
        simp only [List.length_cons]
        omega

/-- C2 counterexample: for reported frequency 150 and a 5-second segment the
code's worst-case bound `int(1.1*round(150)/3)*5` is 275, not the claimed
`ceil(1.1*150*5) = 825`. -/
theorem rateBound_150_5_ne_825 :
    rateBound [150] 5 = 275 ∧ rateBound [150] 5 ≠ 825 := by
  decide

/-- C2 amended: the bound computed by `measure_and_save_cont_MAG` is
`int(1.1*max(reported_frequencies)/3) * duration` — the margined maximum
frequency is derated by 3 and floored before multiplying by the segment
duration. For reported frequency 150 and a 5-second segment the bound is
275, and on an all-successful schedule of `n` ticks the sensor records
`min n 275` samples: a segment with at most 275 samples is never capped,
while anything beyond 275 is cut off. -/
theorem rateBound_150_5_eq_275_and_cap :
    rateBound [150] 5 = 275 ∧
    ∀ n : Nat,
      (runSensor (rateBound [150] 5) SensorState.init (successTicks n)).counter =
        min n 275 := by
  refine ⟨by decide, fun n => ?_⟩
  have hall : ∀ inp ∈ successTicks n, inp.ready = true ∧ inp.readResult.isSome = true := by
    intro inp hinp
    rw [successTicks, List.mem_map] at hinp
    obtain ⟨t, -, rfl⟩ := hinp
    exact ⟨rfl, rfl⟩
  have hlen : (successTicks n).length = n := by
    simp [successTicks]
  have hbound : rateBound [150] 5 = 275 := by decide
  rw [runSensor_allSuccess (rateBound [150] 5) (successTicks n) hall SensorState.init
    (Nat.zero_le _), hlen, hbound]
  show (0 + n) ⊓ 275 = n ⊓ 275
  rw [Nat.zero_add]

/-- Each sensor's final state in a `measure_and_save_cont_MAG` call is its
own column of adapter outcomes run from a fresh zero-counter state. -/
theorem measure_cont_MAG_getElem? (freqs : List Nat) (duration : Nat)
    (ticks : List (List TickInput)) (i : Nat) (st : SensorState)
    (hw : ∀ row ∈ ticks, row.length = freqs.length)
    (hst : (measure_and_save_cont_MAG freqs duration ticks)[i]? = some st) :
    st = runSensor (rateBound freqs duration) SensorState.init (column i ticks) := by
  rw [measure_and_save_cont_MAG,
    runLoop_getElem? (rateBound freqs duration) ticks _ (by simpa using hw) i,
    List.getElem?_replicate] at hst
  split at hst
  · rw [Option.map_some'] at hst
    exact (Option.some.inj hst).symm
  · rw [Option.map_none'] at hst
    exact Option.noConfusion hst

/-- C7: within one `measure_and_save_cont_MAG` call, no sensor ever records
more than the precomputed worst-case bound `worstcounter`: the final counter
and the number of emitted rows are both at most the bound, and a service
step on a sensor whose counter has reached the bound changes nothing (the
hard memory ceiling). -/
theorem sample_cap_invariant (freqs : List Nat) (duration : Nat)
    (ticks : List (List TickInput)) (i : Nat) (st : SensorState)
    (hw : ∀ row ∈ ticks, row.length = freqs.length)
    (hst : (measure_and_save_cont_MAG freqs duration ticks)[i]? = some st) :
    st.counter ≤ rateBound freqs duration ∧
    st.rows.length ≤ rateBound freqs duration ∧
    ∀ inp : TickInput, rateBound freqs duration ≤ st.counter →
      serviceSensor (rateBound freqs duration) st inp = st := by
  obtain rfl := measure_cont_MAG_getElem? freqs duration ticks i st hw hst
  have hcnt := runSensor_counter_le (rateBound freqs duration) (column i ticks)
    SensorState.init (Nat.zero_le _)
  have hrows := runSensor_rows_range (rateBound freqs duration) (column i ticks)
    SensorState.init (by rw [SensorState.init]; rfl)
  refine ⟨hcnt, ?_, fun inp h => serviceSensor_at_bound _ _ inp h⟩
  have hlen := congrArg List.length hrows
  rw [List.length_map, List.length_range] at hlen
  omega

/-- Witness for C7: one successful tick on one sensor with reported
frequency 150 over a 5-second segment. -/
theorem sample_cap_invariant_witness :
    ({ counter := 1, rows := [{ ts := 0, counter := 0, x := 1, y := 2, z := 3 }],
        errors := 0 } : SensorState).counter ≤ rateBound [150] 5 ∧
    ({ counter := 1, rows := [{ ts := 0, counter := 0, x := 1, y := 2, z := 3 }],
        errors := 0 } : SensorState).rows.length ≤ rateBound [150] 5 :=
  ⟨(sample_cap_invariant [150] 5 [[⟨true, some (1, 2, 3), 0⟩]] 0 _ (by decide) (by decide)).1,
   (sample_cap_invariant [150] 5 [[⟨true, some (1, 2, 3), 0⟩]] 0 _ (by decide) (by decide)).2.1⟩

/-- C8: when a sensor's read fails on a tick it is serviced on (ready, and
its counter below the bound), exactly one error is logged, no row is
emitted, the counter does not advance, and the loop simply continues with
the remaining ticks — the failed read is consumed, not retried. -/
theorem failed_read_skips_tick (bound : Nat) (st : SensorState) (ts : Int)
    (rest : List TickInput) (h : st.counter < bound) :
    runSensor bound st ({ ready := true, readResult := none, ts := ts } :: rest) =
      runSensor bound { st with errors := st.errors + 1 } rest := by
  rw [runSensor]
  congr 1
  rw [serviceSensor, if_pos ⟨rfl, h⟩]

/-- Witness for C8: a single failing read from a fresh sensor. -/
theorem failed_read_skips_tick_witness :
    runSensor 275 SensorState.init [{ ready := true, readResult := none, ts := 3 }] =
      { counter := 0, rows := [], errors := 1 } :=
  (failed_read_skips_tick 275 SensorState.init 3 [] (by decide)).trans rfl

/-- C9: two runs of the acquisition loop whose adapter outcomes agree on
sensor `j`'s column — however the other sensors' outcomes differ, e.g. a
read failure injected on another sensor on one tick — give sensor `j` the
same final counter, rows and error log. -/
theorem sensor_isolation (bound : Nat) (sts : List SensorState)
    (ticks₁ ticks₂ : List (List TickInput)) (j : Nat)
    (h₁ : ∀ row ∈ ticks₁, row.length = sts.length)
    (h₂ : ∀ row ∈ ticks₂, row.length = sts.length)
    (hcol : column j ticks₁ = column j ticks₂) :
    (runLoop bound sts ticks₁)[j]? = (runLoop bound sts ticks₂)[j]? := by
  rw [runLoop_getElem? bound ticks₁ sts h₁ j, runLoop_getElem? bound ticks₂ sts h₂ j, hcol]

/-- Witness for C9: two sensors, one tick; sensor 0's read fails in the
second run but succeeds in the first, and sensor 1's outcome is unchanged. -/
theorem sensor_isolation_witness :
    (runLoop 10 (List.replicate 2 SensorState.init)
        [[⟨true, some (1, 2, 3), 0⟩, ⟨true, some (4, 5, 6), 0⟩]])[1]? =
    (runLoop 10 (List.replicate 2 SensorState.init)
        [[⟨true, none, 0⟩, ⟨true, some (4, 5, 6), 0⟩]])[1]? :=
  sensor_isolation 10 (List.replicate 2 SensorState.init)
    [[⟨true, some (1, 2, 3), 0⟩, ⟨true, some (4, 5, 6), 0⟩]]
    [[⟨true, none, 0⟩, ⟨true, some (4, 5, 6), 0⟩]] 1
    (by decide) (by decide) (by decide)

/-- The sequence of per-segment calls `measure_and_save` makes
(magrun.py lines 184-215): one `measure_and_save_cont_MAG` call per entry of
`segmentDurations`, each with fresh per-sensor state, each given its own
environment schedule. -/
def runSegments (freqs : List Nat) (L d : Nat)
    (schedules : List (List (List TickInput))) : List (List SensorState) :=
  (List.zip (segmentDurations L d) schedules).map
    (fun p => measure_and_save_cont_MAG freqs p.1 p.2)

/-- Sensor `i`'s counter values concatenated over all its segment files in
production (= start-time) order. -/
def counterTrace (i : Nat) (segs : List (List SensorState)) : List Nat :=
  ((segs.filterMap (fun states => states[i]?)).map
    (fun st => st.rows.map Row.counter)).flatten

/-- C1 counterexample: a 10-second run cut into two 5-second segments, one
sensor, one successful sample per segment. The counter sequence concatenated
over the two segment files is `[0, 0]` — the second file restarts at 0
instead of continuing at 1, so it is not strictly increasing by 1. -/
theorem counterTrace_resets_across_segments :
    counterTrace 0 (runSegments [150] 5 10
        [[[⟨true, some (0, 0, 0), 0⟩]], [[⟨true, some (0, 0, 0), 1⟩]]]) = [0, 0] ∧
    ¬ List.Chain' (fun a b : Nat => b = a + 1) [0, 0] := by
  refine ⟨by decide, ?_⟩
  simp [List.chain'_cons]

/-- C1 amended: counters are per-segment-file, not per-sensor-run:
`measure_and_save_cont_MAG` re-initializes every sensor's counter to 0 on
each call, so within every single segment file a sensor's counter sequence
is exactly `0, 1, …, k−1` (strictly increasing by 1 from 0 for the samples
that succeeded), and it restarts from 0 at each new segment file. -/
theorem segment_counters_eq_range (freqs : List Nat) (L d : Nat)
    (schedules : List (List (List TickInput))) (i : Nat)
    (hw : ∀ s ∈ schedules, ∀ row ∈ s, row.length = freqs.length)
    (seg : List SensorState) (hseg : seg ∈ runSegments freqs L d schedules)
    (st : SensorState) (hst : seg[i]? = some st) :
    st.rows.map Row.counter = List.range st.counter := by
  rw [runSegments, List.mem_map] at hseg
  obtain ⟨p, hp, rfl⟩ := hseg
  have hsched : p.2 ∈ schedules := (List.of_mem_zip hp).2
  obtain rfl := measure_cont_MAG_getElem? freqs p.1 p.2 i st (hw p.2 hsched) hst
  exact runSensor_rows_range _ _ SensorState.init (by rw [SensorState.init]; rfl)

/-- Witness for C1 amended: the first segment file of the counterexample
run carries counters `[0] = range 1`. -/
theorem segment_counters_eq_range_witness :
    ([{ ts := 0, counter := 0, x := 0, y := 0, z := 0 }] : List Row).map Row.counter =
      List.range 1 :=
  segment_counters_eq_range [150] 5 10
    [[[⟨true, some (0, 0, 0), 0⟩]], [[⟨true, some (0, 0, 0), 1⟩]]] 0
    (by decide)
    [⟨1, [⟨0, 0, 0, 0, 0⟩], 0⟩] (by decide)
    ⟨1, [⟨0, 0, 0, 0, 0⟩], 0⟩ (by decide)

/-- `launch` (RM3100_NM.py lines 174-228): the adapter reads the test
register 0xB6; `read8` returning `False` (modelled `none`) makes `launch`
raise, otherwise the configured magnetometer (identified here by its
address) is returned. -/
def launch (addr : Nat) (testRead : Option Nat) : Except String Nat :=
  match testRead with
  | none =>
      Except.error "Failed to read register 0xB6 (Test). Status test failed. No connection to PNI."
  | some _ => Except.ok addr

/-- `launch_magnetometers` (magrun.py lines 117-135): the list comprehension
`[mag.launch(userbus, addr, frq, cycles, maglog) for addr in addresses]`
evaluates `launch` left to right; the first raised exception propagates out
of the comprehension (there is no surrounding handler), aborting the whole
initialization. Input: each address paired with its test-register read
outcome. -/
def launch_magnetometers : List (Nat × Option Nat) → Except String (List Nat)
  | [] => Except.ok []
  | p :: rest =>
    match launch p.1 p.2 with
    | Except.error e => Except.error e
    | Except.ok m =>
      match launch_magnetometers rest with
      | Except.error e => Except.error e
      | Except.ok ms => Except.ok (m :: ms)

/-- A launch attempt that aborts the run (an uncaught exception). -/
def launchAborts {α : Type} : Except String α → Bool
  | Except.error _ => true
  | Except.ok _ => false

/-- C3 counterexample: with the four configured addresses, if the sensor at
0x21 fails its test-register read while the other three are usable, the
whole initialization raises — no sensor list excluding 0x21 is returned,
the run does not continue with the remaining sensors. -/
theorem launch_magnetometers_error_on_single_failure :
    launch_magnetometers [(0x20, some 0), (0x21, none), (0x22, some 0), (0x23, some 0)] =
      Except.error
        "Failed to read register 0xB6 (Test). Status test failed. No connection to PNI." := by
  rfl

/-- C3 amended: a sensor whose test-register read fails makes `launch`
raise and the exception escapes `launch_magnetometers`, aborting the run at
startup; the run proceeds only when every sensor initializes, in which case
all of them (none excluded) enter the round-robin. -/
theorem launch_magnetometers_aborts_or_all (tests : List (Nat × Option Nat)) :
    ((∃ p ∈ tests, p.2 = none) → launchAborts (launch_magnetometers tests) = true) ∧
    ((∀ p ∈ tests, p.2 ≠ none) →
      launch_magnetometers tests = Except.ok (tests.map Prod.fst)) := by
  induction tests with
  | nil =>
      refine ⟨?_, fun _ => rfl⟩
      rintro ⟨p, hp, -⟩
      exact absurd hp (List.not_mem_nil p)
  | cons q rest ih =>
      constructor
      · rintro ⟨p, hp, hnone⟩
        rcases List.mem_cons.mp hp with rfl | hmem
        · rw [launch_magnetometers, hnone]
          rfl
        · rw [launch_magnetometers]
          match hq : launch q.1 q.2 with
          | Except.error e => rfl
          | Except.ok m =>
              have habort := ih.1 ⟨p, hmem, hnone⟩
              match hr : launch_magnetometers rest with
              | Except.error e => rfl
              | Except.ok ms => rw [hr] at habort; exact absurd habort (by simp [launchAborts])
      · intro hall
        have hq : q.2 ≠ none := hall q (List.mem_cons_self _ _)
        match hq2 : q.2 with
        | none => exact absurd hq2 hq
        | some v =>
            rw [launch_magnetometers, hq2,
              ih.2 (fun p hp => hall p (List.mem_cons_of_mem _ hp))]
            rfl

/-- Witness for C3 amended: one failing sensor aborts; and an all-good pair
initializes both. -/
theorem launch_magnetometers_aborts_or_all_witness :
    launchAborts (launch_magnetometers [(0x20, some 0), (0x21, none)]) = true ∧
    launch_magnetometers [(0x20, some 7), (0x21, some 9)] =
      Except.ok ([(0x20, some 7), (0x21, some 9)].map Prod.fst) :=
  ⟨(launch_magnetometers_aborts_or_all [(0x20, some 0), (0x21, none)]).1
      ⟨(0x21, none), by decide, rfl⟩,
   (launch_magnetometers_aborts_or_all [(0x20, some 7), (0x21, some 9)]).2
      (by decide)⟩

/-- One entry of the manifest handed to the archiver: whether
`os.path.exists` finds the listed source and whether `xz -9v` on it exits
successfully. -/
structure SrcFile where
  present : Bool
  xzOk : Bool
deriving DecidableEq

/-- Observable outcome of `compress_files_with_xz`: whether the manifest
(file-list) was removed, how many "File not found" and "Error compressing"
lines were logged, how many sources were compressed (and thereby consumed
by `xz`), and how many present sources remain uncompressed on disk. -/
structure XzRun where
  manifestDeleted : Bool
  notFoundLogged : Nat
  xzErrorsLogged : Nat
  compressedCount : Nat
  remaining : Nat
deriving DecidableEq

/-- Body of the `for file_path in files_to_compress` loop of
`compress_files_with_xz` (compress_script.py lines 18-35): a missing source
is logged and skipped; a `CalledProcessError` from `xz` is logged and the
loop continues, leaving that source in place; a successful `xz -9v` replaces
the source with its `.xz`. -/
def xzStep (st : XzRun) (f : SrcFile) : XzRun :=
  if !f.present then { st with notFoundLogged := st.notFoundLogged + 1 }
  else if f.xzOk then { st with compressedCount := st.compressedCount + 1 }
  else { st with xzErrorsLogged := st.xzErrorsLogged + 1, remaining := st.remaining + 1 }

/-- `compress_files_with_xz` (compress_script.py lines 7-44): `none` models
the manifest itself being unreadable (`FileNotFoundError` — caught, logged,
nothing deleted). Otherwise the file loop runs and then
`os.remove(txt_file_path)` executes unconditionally. -/
def compress_files_with_xz : Option (List SrcFile) → XzRun
  | none =>
      { manifestDeleted := false, notFoundLogged := 0, xzErrorsLogged := 0
        compressedCount := 0, remaining := 0 }
  | some files =>
      { files.foldl xzStep
          { manifestDeleted := false, notFoundLogged := 0, xzErrorsLogged := 0
            compressedCount := 0, remaining := 0 } with
        manifestDeleted := true }

/-- C5 counterexample: a manifest listing a single source whose `xz`
invocation fails — the failure is logged, yet the manifest is deleted all
the same, not left in place for manual recovery. -/
theorem manifest_deleted_despite_failure :
    (compress_files_with_xz (some [{ present := true, xzOk := false }])).xzErrorsLogged = 1 ∧
    (compress_files_with_xz (some [{ present := true, xzOk := false }])).manifestDeleted = true := by
  decide

/-- The loop of `compress_files_with_xz` only counts outcomes. -/
theorem xz_foldl (files : List SrcFile) (st : XzRun) :
    (files.foldl xzStep st).manifestDeleted = st.manifestDeleted ∧
    (files.foldl xzStep st).xzErrorsLogged =
      st.xzErrorsLogged + (files.filter (fun f => f.present && !f.xzOk)).length ∧
    (files.foldl xzStep st).remaining =
      st.remaining + (files.filter (fun f => f.present && !f.xzOk)).length ∧
    (files.foldl xzStep st).compressedCount =
      st.compressedCount + (files.filter (fun f => f.present && f.xzOk)).length := by
  induction files generalizing st with
  | nil => simp
  | cons f rest ih =>
      obtain ⟨hdel, herr, hrem, hcmp⟩ := ih (xzStep st f)
      rw [List.foldl_cons]
      refine ⟨?_, ?_, ?_, ?_⟩
      · rw [hdel]
        by_cases hp : f.present <;> by_cases hx : f.xzOk <;> simp [xzStep, hp, hx]
      · rw [herr, List.filter_cons]
        by_cases hp : f.present <;> by_cases hx : f.xzOk <;>
          simp [xzStep, hp, hx] <;> omega
      · rw [hrem, List.filter_cons]
        by_cases hp : f.present <;> by_cases hx : f.xzOk <;>
          simp [xzStep, hp, hx] <;> omega
      · rw [hcmp, List.filter_cons]
        by_cases hp : f.present <;> by_cases hx : f.xzOk <;>
          simp [xzStep, hp, hx] <;> omega

/-- C5 amended: the archiver deletes the manifest whenever the manifest
itself is readable, regardless of per-file outcomes; a failed compression is
reported through the log channel, its source stays on disk, and the
remaining listed files are still processed — only an unreadable manifest is
left undeleted. -/
theorem manifest_deletion_and_failure_logging (files : List SrcFile) :
    (compress_files_with_xz (some files)).manifestDeleted = true ∧
    (compress_files_with_xz none).manifestDeleted = false ∧
    (compress_files_with_xz (some files)).xzErrorsLogged =
      (files.filter (fun f => f.present && !f.xzOk)).length ∧
    (compress_files_with_xz (some files)).remaining =
      (files.filter (fun f => f.present && !f.xzOk)).length ∧
    (compress_files_with_xz (some files)).compressedCount =
      (files.filter (fun f => f.present && f.xzOk)).length := by
  obtain ⟨-, herr, hrem, hcmp⟩ := xz_foldl files
    { manifestDeleted := false, notFoundLogged := 0, xzErrorsLogged := 0
      compressedCount := 0, remaining := 0 }
  exact ⟨rfl, rfl, by simpa using herr, by simpa using hrem, by simpa using hcmp⟩

/-- `int.from_bytes(bs, 'big', signed=True)`: big-endian bytes to an
integer, two's-complement signed in `8·len(bs)` bits. -/
def int_from_bytes_big_signed (bs : List Nat) : Int :=
  if 2 ^ (8 * bs.length) ≤ 2 * bs.foldl (fun a b => 256 * a + b) 0 then
    ((bs.foldl (fun a b => 256 * a + b) 0 : Nat) : Int) - 2 ^ (8 * bs.length)
  else ((bs.foldl (fun a b => 256 * a + b) 0 : Nat) : Int)

/-- `RM3100._convert_measurement` (RM3100_NM.py lines 159-171), identical to
`convert3bytes` in `RM3100_SOFIA.read_measurements` (RM3100_SOFIA.py lines
105-109): a 3-byte axis reading is prefixed with `0xFF` when its leading
byte is at least 64 and with `0x00` otherwise, then decoded as a signed
big-endian 32-bit value. -/
def _convert_measurement (data : List Nat) : Int :=
  if 64 ≤ data.headI then int_from_bytes_big_signed (255 :: data)
  else int_from_bytes_big_signed (0 :: data)

/-- C10 counterexample: the raw bytes `[64, 0, 0]` (each in 0..255) decode
to −12582912, which lies outside the signed 24-bit range
−2^23 .. 2^23 − 1. -/
theorem convert_measurement_escapes_24_bits :
    _convert_measurement [64, 0, 0] = -12582912 ∧
    _convert_measurement [64, 0, 0] < -(2 ^ 23) := by
  decide

/-- C10 amended: for every 3-byte raw axis measurement the decoded value
lies in −(2^24 − 2^22) .. 2^22 − 1 (negative exactly when the leading byte
is at least 64): it always fits in a signed 25-bit integer, but readings
with leading byte in 64..127 fall below −2^23, outside the sensor's native
signed 24-bit width. -/
theorem convert_measurement_range (b0 b1 b2 : Nat)
    (h0 : b0 < 256) (h1 : b1 < 256) (h2 : b2 < 256) :
    -(2 ^ 24 - 2 ^ 22) ≤ _convert_measurement [b0, b1, b2] ∧
    _convert_measurement [b0, b1, b2] < 2 ^ 22 ∧
    (_convert_measurement [b0, b1, b2] < 0 ↔ 64 ≤ b0) := by
  have hhead : ([b0, b1, b2] : List Nat).headI = b0 := rfl
  have hlen : 8 * (((255 : Nat) :: [b0, b1, b2]).length) = 32 := rfl
  have hlen0 : 8 * (((0 : Nat) :: [b0, b1, b2]).length) = 32 := rfl
  rw [_convert_measurement, hhead]
  by_cases hb : 64 ≤ b0
  · rw [if_pos hb, int_from_bytes_big_signed]
    simp only [List.foldl_cons, List.foldl_nil, hlen]
    rw [if_pos (by omega)]
    refine ⟨by omega, by omega, ?_⟩
    constructor <;> (intro h; omega)
  · rw [if_neg hb, int_from_bytes_big_signed]
    simp only [List.foldl_cons, List.foldl_nil, hlen0]
    rw [if_neg (by omega)]
    refine ⟨by omega, by omega, ?_⟩
    constructor <;> (intro h; omega)

/-- Witness for C10 amended at the boundary bytes `[64, 0, 0]`. -/
theorem convert_measurement_range_witness :
    -(2 ^ 24 - 2 ^ 22) ≤ _convert_measurement [64, 0, 0] ∧
    _convert_measurement [64, 0, 0] < 2 ^ 22 ∧
    (_convert_measurement [64, 0, 0] < 0 ↔ 64 ≤ 64) :=
  convert_measurement_range 64 0 0 (by decide) (by decide) (by decide)

end MagRun
